import Mathlib

/-!
Verification of the aspect-ratio engine and the generation fallback
orchestrator of the image-builder service.

The embedding models:
  * `src/services/aspect_ratio_engine.py` — ratio-string parsing, source-ratio
    selection, crop-box computation, strategy planning;
  * `src/services/image_generation_service.py` — the retry loop
    `_try_generator_with_retry`, the error classifier `_is_retryable_error`,
    the fallback chain `_generate_with_fallback`, and `generate_batch`.

Modelling conventions:
  * Python strings are `List Char`; `str.split(':')` is `splitOnColon`.
  * Python `int` is `ℤ` (arbitrary precision); `int(string)` is `pyInt`
    (optional surrounding ASCII whitespace, optional sign, decimal digits;
    Python's underscore digit separators and non-ASCII digits are not
    modelled — no claim quantifies over such strings).
  * Python `float` arithmetic on ratios is modelled by exact rationals `ℚ`;
    `int(float)` truncation toward zero is `pyTrunc`.
  * A raised exception is an `Except.error`; `ValueError`/`AttributeError`
    caught by `parse_aspect_ratio` become `PyError.invalidRatioFormat`, an
    uncaught division by zero is `PyError.zeroDivision`.
  * `await` / asyncio scheduling is erased: each generator is a function from
    the attempt index to its outcome, and backoff sleeps are recorded as the
    list of delay durations instead of being performed.
-/

/-- Errors a modelled routine can raise. -/
inductive PyError where
  | invalidRatioFormat : PyError
  | zeroDivision : PyError
deriving DecidableEq

/-- ASCII whitespace accepted by Python's `int(...)` around a numeral. -/
def isPyWS (c : Char) : Bool :=
  c = ' ' || c = '\t' || c = '\n' || c = '\r' || c = '\x0b' || c = '\x0c'

/-- `s.split(':')` on character lists: always returns at least one piece,
splitting at every colon. -/
def splitOnColon : List Char → List (List Char)
  | [] => [[]]
  | c :: cs =>
    if c = ':' then [] :: splitOnColon cs
    else
      match splitOnColon cs with
      | [] => [[c]]
      | p :: ps => (c :: p) :: ps

/-- Value of a decimal digit string (most significant digit first). -/
def digitsVal (ds : List Char) : ℕ :=
  ds.foldl (fun a c => 10 * a + (c.toNat - 48)) 0

/-- The unsigned-numeral part of Python `int(...)`: a nonempty run of
decimal digits. -/
def natPart (l : List Char) : Option ℤ :=
  if l ≠ [] ∧ l.all Char.isDigit then some (digitsVal l : ℤ) else none

/-- Python `int(...)` after whitespace stripping: optional single sign,
then a nonempty digit run. -/
def pyIntCore (l : List Char) : Option ℤ :=
  match l with
  | [] => none
  | c :: rest =>
    if c = '+' then natPart rest
    else if c = '-' then (natPart rest).map (fun n => -n)
    else natPart l

/-- Strip leading and trailing ASCII whitespace. -/
def stripWS (l : List Char) : List Char :=
  ((l.dropWhile isPyWS).reverse.dropWhile isPyWS).reverse

/-- Python `int(string)`: `none` models a raised `ValueError`. -/
def pyInt (l : List Char) : Option ℤ :=
  pyIntCore (stripWS l)

/-- The five Imagen-supported aspect ratios, in the source's dict insertion
order (`IMAGEN_SUPPORTED_RATIOS`). -/
def IMAGEN_SUPPORTED_RATIOS : List (List Char × (ℤ × ℤ)) :=
  [("1:1".toList, (1, 1)),
   ("3:4".toList, (3, 4)),
   ("4:3".toList, (4, 3)),
   ("9:16".toList, (9, 16)),
   ("16:9".toList, (16, 9))]

/-- `parse_aspect_ratio`: split on ':' and convert both pieces with `int`;
any failure (wrong piece count, non-numeral piece) is the caught
`ValueError`, surfaced as `InvalidRatioFormat`. -/
def parse_aspect_ratio (s : List Char) : Except PyError (ℤ × ℤ) :=
  match splitOnColon s with
  | [a, b] =>
    match pyInt a, pyInt b with
    | some w, some h => .ok (w, h)
    | _, _ => .error .invalidRatioFormat
  | _ => .error .invalidRatioFormat

/-- An exact fraction of integers.  Python performs the ratio arithmetic on
floats; the model keeps the exact numerator/denominator pair and compares
by cross-multiplication, which agrees with the real-number comparisons the
floats approximate (float literals such as `0.01` are modelled by the
decimal values they denote).  Fractions are never normalised, so every
operation is kernel-computable. -/
structure Frac where
  num : ℤ
  den : ℤ
deriving DecidableEq

/-- The rational value of a fraction (specification view only). -/
def Frac.toRat (x : Frac) : ℚ :=
  (x.num : ℚ) / (x.den : ℚ)

/-- `x < y` on fractions with nonzero denominators: cross-multiply by the
positive square of both denominators. -/
def Frac.flt (x y : Frac) : Bool :=
  decide (x.num * x.den * (y.den * y.den) < y.num * y.den * (x.den * x.den))

/-- `x ≤ y` on fractions with nonzero denominators. -/
def Frac.fle (x y : Frac) : Bool :=
  decide (x.num * x.den * (y.den * y.den) ≤ y.num * y.den * (x.den * x.den))

/-- Exact subtraction. -/
def Frac.sub (x y : Frac) : Frac :=
  ⟨x.num * y.den - y.num * x.den, x.den * y.den⟩

/-- Exact absolute value. -/
def Frac.fabs (x : Frac) : Frac :=
  ⟨|x.num|, |x.den|⟩

/-- Exact multiplication. -/
def Frac.mul (x y : Frac) : Frac :=
  ⟨x.num * y.num, x.den * y.den⟩

/-- Exact division (the divisor's numerator must be nonzero, which every
caller checks as Python's `ZeroDivisionError`). -/
def Frac.fdiv (x y : Frac) : Frac :=
  ⟨x.num * y.den, x.den * y.num⟩

/-- An integer as a fraction. -/
def Frac.ofInt (n : ℤ) : Frac :=
  ⟨n, 1⟩

/-- `get_decimal_ratio`: float division `w / h`, modelled exactly.  Callers
perform the `ZeroDivisionError` check that Python's division raises. -/
def get_decimal_ratio (r : ℤ × ℤ) : Frac :=
  ⟨r.1, r.2⟩

/-- `is_imagen_supported`: membership of the ratio string among the
supported-dict keys. -/
def is_imagen_supported (s : List Char) : Bool :=
  (IMAGEN_SUPPORTED_RATIOS.map Prod.fst).contains s

/-- One iteration of `select_source_ratio`'s loop body: skip candidates that
cannot contain the target, otherwise keep the candidate of strictly
smallest waste seen so far (`none` is the initial `float('inf')`). -/
def selectStep (targetDec : Frac) (isPortrait : Bool)
    (acc : List Char × Option Frac) (cand : List Char × (ℤ × ℤ)) :
    List Char × Option Frac :=
  let candDec := get_decimal_ratio cand.2
  let canContain : Bool :=
    if isPortrait then candDec.fle targetDec else targetDec.fle candDec
  if canContain then
    let waste := (candDec.sub targetDec).fabs
    match acc.2 with
    | none => (cand.1, some waste)
    | some minWaste => if waste.flt minWaste then (cand.1, some waste) else acc
  else acc

/-- `select_source_ratio`: fast path for supported strings, then parse,
classify orientation, and run the containment/waste loop over every
supported ratio, starting from the orientation preference default
`candidates[0]`. -/
def select_source_ratio (s : List Char) : Except PyError (List Char) :=
  if is_imagen_supported s then .ok s
  else
    match parse_aspect_ratio s with
    | .error e => .error e
    | .ok t =>
      if t.2 = 0 then .error .zeroDivision
      else
        let targetDec := get_decimal_ratio t
        let isPortrait : Bool := targetDec.flt (Frac.ofInt 1)
        let isSquare : Bool := ((targetDec.sub (Frac.ofInt 1)).fabs).flt ⟨1, 100⟩
        let candidates : List (List Char) :=
          if isSquare then ["1:1".toList]
          else if isPortrait then ["9:16".toList, "3:4".toList, "1:1".toList]
          else ["16:9".toList, "4:3".toList, "1:1".toList]
        let best0 := candidates.headD []
        .ok (IMAGEN_SUPPORTED_RATIOS.foldl (selectStep targetDec isPortrait) (best0, none)).1

/-- Python `int(x)` on a float value `num / den`: truncation toward zero. -/
def pyTrunc (x : Frac) : ℤ :=
  Int.tdiv x.num x.den

/-- The anchor dispatch of `calculate_crop_box`: given source and crop
dimensions, the `(left, top)` offsets for each anchor string; the final
`else` branch and the `"smart"` branch both coincide with `"center"`.
Python's `//` on ints is floor division, `Int.fdiv`. -/
def anchorOffsets (sw sh nw nh : ℤ) (anchor : List Char) : ℤ × ℤ :=
  if anchor = "center".toList then (Int.fdiv (sw - nw) 2, Int.fdiv (sh - nh) 2)
  else if anchor = "top".toList then (Int.fdiv (sw - nw) 2, 0)
  else if anchor = "bottom".toList then (Int.fdiv (sw - nw) 2, sh - nh)
  else if anchor = "left".toList then (0, Int.fdiv (sh - nh) 2)
  else if anchor = "right".toList then (sw - nw, Int.fdiv (sh - nh) 2)
  else if anchor = "smart".toList then (Int.fdiv (sw - nw) 2, Int.fdiv (sh - nh) 2)
  else (Int.fdiv (sw - nw) 2, Int.fdiv (sh - nh) 2)

/-- `calculate_crop_box`: fit by width first, refit by height when too tall,
then place via the anchor; returns PIL's `(left, top, right, bottom)`.
`target_ratio.2 = 0` raises inside `get_decimal_ratio`, and a zero decimal
ratio raises at the float division `source_width / target_decimal`. -/
def calculate_crop_box (source_size : ℤ × ℤ) (target_ratio : ℤ × ℤ)
    (anchor : List Char) : Except PyError (ℤ × ℤ × ℤ × ℤ) :=
  let sw := source_size.1
  let sh := source_size.2
  if target_ratio.2 = 0 then .error .zeroDivision
  else
    let targetDec := get_decimal_ratio target_ratio
    if targetDec.num = 0 then .error .zeroDivision
    else
      let nh0 := pyTrunc ((Frac.ofInt sw).fdiv targetDec)
      let dims :=
        if nh0 > sh then (pyTrunc ((Frac.ofInt sh).mul targetDec), sh) else (sw, nh0)
      let off := anchorOffsets sw sh dims.1 dims.2 anchor
      .ok (off.1, off.2, off.1 + dims.1, off.2 + dims.2)

/-- The plan record returned by `get_aspect_ratio_strategy`. -/
structure Strategy where
  source_ratio : List Char
  requires_crop : Bool
  target_ratio : ℤ × ℤ
  strategy : List Char
deriving DecidableEq

/-- `get_aspect_ratio_strategy`: parse, bypass for supported targets, else
delegate to `select_source_ratio` and require a crop. -/
def get_aspect_ratio_strategy (s : List Char) : Except PyError Strategy :=
  match parse_aspect_ratio s with
  | .error e => .error e
  | .ok t =>
    if is_imagen_supported s then
      .ok ⟨s, false, t,
        "Generate directly at ".toList ++ s ++ " (natively supported)".toList⟩
    else
      match select_source_ratio s with
      | .error e => .error e
      | .ok src =>
        .ok ⟨src, true, t,
          "Generate at ".toList ++ src ++ ", then crop to ".toList ++ s⟩

/-- Outcome of one `generator.generate_image(...)` call: a success dict, a
`success=False` dict carrying an error message, or a raised exception
(whose `str(e)` is the carried message). -/
inductive GenOutcome where
  | ok : ℕ → GenOutcome
  | err : List Char → GenOutcome
  | exn : List Char → GenOutcome
deriving DecidableEq

/-- A generator's behaviour: the outcome of its call at each attempt index. -/
def GenBehavior : Type := ℕ → GenOutcome

/-- ASCII lowercasing, as used by `error.lower()` on the messages the
classifier sees. -/
def toLowerChar (c : Char) : Char :=
  if 'A' ≤ c ∧ c ≤ 'Z' then Char.ofNat (c.toNat + 32) else c

/-- `needle` starts `hay`. -/
def startsList : List Char → List Char → Bool
  | [], _ => true
  | _ :: _, [] => false
  | a :: as, b :: bs => a = b && startsList as bs

/-- Python's `needle in hay` substring test. -/
def containsSub (needle hay : List Char) : Bool :=
  startsList needle hay ||
    match hay with
    | [] => false
    | _ :: t => containsSub needle t

/-- The fixed retryable-substring list of `_is_retryable_error`. -/
def retryablePatterns : List (List Char) :=
  ["429".toList, "rate limit".toList, "quota".toList, "exceeded".toList,
   "503".toList, "service unavailable".toList, "unavailable".toList,
   "timeout".toList, "timed out".toList,
   "connection".toList, "network".toList,
   "temporarily".toList, "try again".toList,
   "overloaded".toList, "capacity".toList]

/-- `_is_retryable_error`: case-insensitive substring match against the
fixed pattern list. -/
def is_retryable_error (error : List Char) : Bool :=
  retryablePatterns.any (fun p => containsSub p (error.map toLowerChar))

/-- Result of `_try_generator_with_retry`, with two observability fields the
Python dict does not carry: how many `generate_image` calls were made and
which backoff delays were slept. -/
structure RetryResult where
  success : Bool
  payload : Option ℕ
  error : Option (List Char)
  calls : ℕ
  delays : List ℚ
deriving DecidableEq

/-- The retry loop of `_try_generator_with_retry`, one constructor case per
iteration.  `attempt` is the current loop index, `fuel` the number of
iterations left (`max_retries + 1` at entry, so the zero-fuel case is
unreachable), `acc` the backoff delays slept so far (reversed).  A success
returns immediately; a non-retryable error result breaks before any sleep;
otherwise the loop sleeps `2 ^ attempt * base` and continues while
`attempt < maxRetries`. -/
def retryGo (b : GenBehavior) (base : ℚ) (maxRetries : ℕ) :
    ℕ → ℕ → List ℚ → RetryResult
  | attempt, 0, acc => ⟨false, none, none, attempt, acc.reverse⟩
  | attempt, fuel + 1, acc =>
    match b attempt with
    | .ok p => ⟨true, some p, none, attempt + 1, acc.reverse⟩
    | .err m =>
      if is_retryable_error m then
        if attempt < maxRetries then
          retryGo b base maxRetries (attempt + 1) fuel ((2 ^ attempt * base) :: acc)
        else ⟨false, none, some m, attempt + 1, acc.reverse⟩
      else ⟨false, none, some m, attempt + 1, acc.reverse⟩
    | .exn m =>
      if attempt < maxRetries then
        retryGo b base maxRetries (attempt + 1) fuel ((2 ^ attempt * base) :: acc)
      else ⟨false, none, some m, attempt + 1, acc.reverse⟩

/-- `_try_generator_with_retry(generator, ..., max_retries)`: run the loop
for `max_retries + 1` attempts. -/
def try_generator_with_retry (b : GenBehavior) (base : ℚ) (maxRetries : ℕ) :
    RetryResult :=
  retryGo b base maxRetries 0 (maxRetries + 1) []

/-- The structured result `_generate_with_fallback` resolves to. -/
structure FallbackResult where
  success : Bool
  payload : Option ℕ
  error : Option (List Char)
  generator_used : Option (List Char)
  fallback_used : Bool
  generators_attempted : List (List Char)
deriving DecidableEq

/-- The terminal `"All generators failed. Last error: {last_error}"` message
(`str(None)` is `"None"`). -/
def allFailedMsg (lastError : Option (List Char)) : List Char :=
  "All generators failed. Last error: ".toList ++
    (match lastError with
     | none => "None".toList
     | some m => m)

/-- The fallback loop of `_generate_with_fallback` (Step 2): each fallback
generator is tried with a retry budget of 1, appended to the attempted
list, and the first success wins with `fallback_used = True`. -/
def tryFallbacks (base : ℚ) :
    List (List Char × GenBehavior) → List (List Char) → Option (List Char) →
    FallbackResult
  | [], attempted, lastError =>
    ⟨false, none, some (allFailedMsg lastError), none, false, attempted⟩
  | (name, b) :: rest, attempted, _lastError =>
    let r := try_generator_with_retry b base 1
    let attempted1 := attempted ++ [name]
    if r.success then ⟨true, r.payload, r.error, some name, true, attempted1⟩
    else tryFallbacks base rest attempted1 r.error

/-- The orchestrator configuration: primary generator (name and behaviour),
retry budget and backoff base, and the ordered fallback chain. -/
structure Orchestrator where
  primary : Option (List Char × GenBehavior)
  maxRetries : ℕ
  retryDelayBase : ℚ
  enableFallback : Bool
  fallbacks : List (List Char × GenBehavior)

/-- `_generate_with_fallback`: primary first with the full retry budget,
then the fallback chain, else the terminal all-failed result. -/
def generate_with_fallback (o : Orchestrator) : FallbackResult :=
  match o.primary with
  | some (pname, b) =>
    let r := try_generator_with_retry b o.retryDelayBase o.maxRetries
    if r.success then ⟨true, r.payload, r.error, some pname, false, [pname]⟩
    else if o.enableFallback then
      tryFallbacks o.retryDelayBase o.fallbacks [pname] r.error
    else ⟨false, none, some (allFailedMsg r.error), none, false, [pname]⟩
  | none =>
    if o.enableFallback then tryFallbacks o.retryDelayBase o.fallbacks [] none
    else ⟨false, none, some (allFailedMsg none), none, false, []⟩

/-- An `ImageGenerationResponse` as far as the batch coordinator inspects
it: the success flag and the error field. -/
structure ItemResponse where
  success : Bool
  error : Option (List Char)
deriving DecidableEq

/-- What one item's `self.generate(request)` pipeline does: return a
response, or raise. -/
inductive PipelineOutcome where
  | ret : ItemResponse → PipelineOutcome
  | exn : List Char → PipelineOutcome
deriving DecidableEq

/-- `generate_with_limit`: the per-item wrapper of `generate_batch` — a
raised exception is caught and converted to a failure response, so no
item's failure can escape and abort its siblings. -/
def generate_with_limit (behavior : ℕ → PipelineOutcome) (index : ℕ) :
    ItemResponse :=
  match behavior index with
  | .ret r => r
  | .exn m => ⟨false, some m⟩

/-- The `BatchImageGenerationResponse` fields `generate_batch` fills in. -/
structure BatchResponse where
  success : Bool
  total_requests : ℕ
  successful : ℕ
  failed : ℕ
  results : List ItemResponse
deriving DecidableEq

/-- `generate_batch`: run one pipeline per request (requests are identified
by their position; `behavior` gives each pipeline's outcome), gather the
responses in input order, and count successes.  The semaphore only bounds
concurrency and does not affect the gathered values, so it is erased. -/
def generate_batch (behavior : ℕ → PipelineOutcome) (numRequests : ℕ) :
    BatchResponse :=
  let results := (List.range numRequests).map (generate_with_limit behavior)
  let successful := (results.filter (fun r => r.success)).length
  let failed := results.length - successful
  ⟨failed = 0, numRequests, successful, failed, results⟩

/-- The containment rule of the spec, stated on rational decimal values: a
candidate "contains" the target when its decimal is at most the target's
for portrait targets and at least the target's for landscape targets. -/
def ratioContains (target cand : ℚ) : Prop :=
  if target < 1 then cand ≤ target else target ≤ cand

/-! ### Helper lemmas: strings, splitting, numerals -/

theorem supported_iff (s : List Char) :
    is_imagen_supported s = true ↔
      s = "1:1".toList ∨ s = "3:4".toList ∨ s = "4:3".toList ∨
        s = "9:16".toList ∨ s = "16:9".toList := by
  rw [is_imagen_supported, List.elem_iff]
  simp [IMAGEN_SUPPORTED_RATIOS]

theorem splitOnColon_no_colon (l : List Char) (h : ∀ c ∈ l, c ≠ ':') :
    splitOnColon l = [l] := by
  induction l with
  | nil => rfl
  | cons a t ih =>
    have ha : a ≠ ':' := h a (by simp)
    have ht : ∀ c ∈ t, c ≠ ':' := fun c hc => h c (by simp [hc])
    simp [splitOnColon, ha, ih ht]

theorem splitOnColon_append (l r : List Char) (h : ∀ c ∈ l, c ≠ ':') :
    splitOnColon (l ++ ':' :: r) = l :: splitOnColon r := by
  induction l with
  | nil => simp [splitOnColon]
  | cons a t ih =>
    have ha : a ≠ ':' := h a (by simp)
    have ht : ∀ c ∈ t, c ≠ ':' := fun c hc => h c (by simp [hc])
    simp [splitOnColon, ha, ih ht]

theorem isDigit_ne_colon {c : Char} (h : c.isDigit = true) : c ≠ ':' := by
  intro hc; subst hc; exact absurd h (by decide)

theorem isDigit_ne_plus {c : Char} (h : c.isDigit = true) : c ≠ '+' := by
  intro hc; subst hc; exact absurd h (by decide)

theorem isDigit_ne_minus {c : Char} (h : c.isDigit = true) : c ≠ '-' := by
  intro hc; subst hc; exact absurd h (by decide)

theorem isDigit_not_ws {c : Char} (h : c.isDigit = true) : isPyWS c = false := by
  cases hw : isPyWS c with
  | false => rfl
  | true =>
    exfalso
    simp only [isPyWS, Bool.or_eq_true, decide_eq_true_eq] at hw
    rcases hw with ((((h1 | h1) | h1) | h1) | h1) | h1 <;> subst h1 <;>
      exact absurd h (by decide)

theorem dropWhile_ws_eq (l : List Char) (h : ∀ c ∈ l, isPyWS c = false) :
    l.dropWhile isPyWS = l := by
  cases l with
  | nil => rfl
  | cons a t => simp [List.dropWhile_cons, h a (by simp)]

theorem stripWS_eq (l : List Char) (h : ∀ c ∈ l, isPyWS c = false) :
    stripWS l = l := by
  unfold stripWS
  rw [dropWhile_ws_eq l h,
    dropWhile_ws_eq l.reverse (fun c hc => h c (List.mem_reverse.mp hc)),
    List.reverse_reverse]

theorem natPart_digits (l : List Char) (h0 : l ≠ [])
    (h : ∀ c ∈ l, c.isDigit = true) :
    natPart l = some (digitsVal l : ℤ) := by
  unfold natPart
  rw [if_pos ⟨h0, List.all_eq_true.mpr h⟩]

theorem pyInt_digits (l : List Char) (h0 : l ≠ [])
    (h : ∀ c ∈ l, c.isDigit = true) :
    pyInt l = some (digitsVal l : ℤ) := by
  unfold pyInt
  rw [stripWS_eq l (fun c hc => isDigit_not_ws (h c hc))]
  cases l with
  | nil => exact absurd rfl h0
  | cons a t =>
    have ha := h a (by simp)
    show (if a = '+' then natPart t
      else if a = '-' then (natPart t).map (fun n => -n) else natPart (a :: t)) = _
    rw [if_neg (isDigit_ne_plus ha), if_neg (isDigit_ne_minus ha)]
    exact natPart_digits _ h0 h

theorem pyInt_neg_digits (l : List Char) (h0 : l ≠ [])
    (h : ∀ c ∈ l, c.isDigit = true) :
    pyInt ('-' :: l) = some (-(digitsVal l : ℤ)) := by
  unfold pyInt
  rw [stripWS_eq ('-' :: l) ?_]
  · show (if '-' = '+' then natPart l
      else if '-' = '-' then (natPart l).map (fun n => -n) else natPart ('-' :: l)) = _
    rw [if_neg (by decide), if_pos rfl, natPart_digits _ h0 h]
    rfl
  · intro c hc
    rcases List.mem_cons.mp hc with h1 | h1
    · subst h1; decide
    · exact isDigit_not_ws (h c h1)

theorem parse_digits (a b : List Char) (ha0 : a ≠ []) (hb0 : b ≠ [])
    (ha : ∀ c ∈ a, c.isDigit = true) (hb : ∀ c ∈ b, c.isDigit = true) :
    parse_aspect_ratio (a ++ ':' :: b) = .ok ((digitsVal a : ℤ), (digitsVal b : ℤ)) := by
  unfold parse_aspect_ratio
  rw [splitOnColon_append a b (fun c hc => isDigit_ne_colon (ha c hc)),
    splitOnColon_no_colon b (fun c hc => isDigit_ne_colon (hb c hc))]
  simp [pyInt_digits a ha0 ha, pyInt_digits b hb0 hb]

theorem parse_neg_digits (a b : List Char) (ha0 : a ≠ []) (hb0 : b ≠ [])
    (ha : ∀ c ∈ a, c.isDigit = true) (hb : ∀ c ∈ b, c.isDigit = true) :
    parse_aspect_ratio ('-' :: a ++ ':' :: b) =
      .ok (-(digitsVal a : ℤ), (digitsVal b : ℤ)) := by
  unfold parse_aspect_ratio
  have hh : ∀ c ∈ '-' :: a, c ≠ ':' := by
    intro c hc
    rcases List.mem_cons.mp hc with h1 | h1
    · subst h1; decide
    · exact isDigit_ne_colon (ha c h1)
  rw [show ('-' :: a ++ ':' :: b) = (('-' :: a) ++ ':' :: b) by simp,
    splitOnColon_append _ b hh,
    splitOnColon_no_colon b (fun c hc => isDigit_ne_colon (hb c hc))]
  simp [pyInt_neg_digits a ha0 ha, pyInt_digits b hb0 hb]

/-! ### Helper lemmas: fraction arithmetic vs. rational values -/

theorem Frac.toRat_def (a b : ℤ) : (Frac.mk a b).toRat = (a : ℚ) / (b : ℚ) := rfl

theorem Frac.toRat_rewrite (x : Frac) (hx : x.den ≠ 0) :
    x.toRat = ((x.num * x.den : ℤ) : ℚ) / ((x.den * x.den : ℤ) : ℚ) := by
  have hx' : ((x.den : ℚ)) ≠ 0 := Int.cast_ne_zero.mpr hx
  rw [Frac.toRat]
  push_cast
  rw [mul_div_mul_right _ _ hx']

theorem Frac.flt_iff (x y : Frac) (hx : x.den ≠ 0) (hy : y.den ≠ 0) :
    x.flt y = true ↔ x.toRat < y.toRat := by
  have hx2 : (0 : ℚ) < ((x.den * x.den : ℤ) : ℚ) := by
    push_cast
    exact mul_self_pos.mpr (Int.cast_ne_zero.mpr hx)
  have hy2 : (0 : ℚ) < ((y.den * y.den : ℤ) : ℚ) := by
    push_cast
    exact mul_self_pos.mpr (Int.cast_ne_zero.mpr hy)
  rw [Frac.flt, decide_eq_true_eq, Frac.toRat_rewrite x hx, Frac.toRat_rewrite y hy,
    div_lt_div_iff₀ hx2 hy2]
  constructor <;> intro h <;> exact_mod_cast h

theorem Frac.fle_iff (x y : Frac) (hx : x.den ≠ 0) (hy : y.den ≠ 0) :
    x.fle y = true ↔ x.toRat ≤ y.toRat := by
  have hx2 : (0 : ℚ) < ((x.den * x.den : ℤ) : ℚ) := by
    push_cast
    exact mul_self_pos.mpr (Int.cast_ne_zero.mpr hx)
  have hy2 : (0 : ℚ) < ((y.den * y.den : ℤ) : ℚ) := by
    push_cast
    exact mul_self_pos.mpr (Int.cast_ne_zero.mpr hy)
  rw [Frac.fle, decide_eq_true_eq, Frac.toRat_rewrite x hx, Frac.toRat_rewrite y hy,
    div_le_div_iff₀ hx2 hy2]
  constructor <;> intro h <;> exact_mod_cast h

theorem Frac.toRat_sub (x y : Frac) (hx : x.den ≠ 0) (hy : y.den ≠ 0) :
    (x.sub y).toRat = x.toRat - y.toRat := by
  have hx' : ((x.den : ℚ)) ≠ 0 := Int.cast_ne_zero.mpr hx
  have hy' : ((y.den : ℚ)) ≠ 0 := Int.cast_ne_zero.mpr hy
  rw [Frac.sub, Frac.toRat, Frac.toRat, Frac.toRat, div_sub_div _ _ hx' hy']
  push_cast
  ring_nf

theorem Frac.toRat_fabs (x : Frac) : x.fabs.toRat = |x.toRat| := by
  rw [Frac.fabs, Frac.toRat, Frac.toRat, abs_div]
  push_cast
  rfl

theorem Frac.toRat_ofInt (n : ℤ) : (Frac.ofInt n).toRat = (n : ℚ) := by
  rw [Frac.ofInt, Frac.toRat]
  push_cast
  rw [div_one]

/-! ### Helper lemmas: the selection loop -/

theorem selectStep_skip (d : Frac) (p : Bool) (acc : List Char × Option Frac)
    (cand : List Char × (ℤ × ℤ))
    (hc : (if p then (get_decimal_ratio cand.2).fle d
      else d.fle (get_decimal_ratio cand.2)) = false) :
    selectStep d p acc cand = acc := by
  simp [selectStep, hc]

theorem selectStep_take_none (d : Frac) (p : Bool) (acc : List Char × Option Frac)
    (cand : List Char × (ℤ × ℤ)) (hacc : acc.2 = none)
    (hc : (if p then (get_decimal_ratio cand.2).fle d
      else d.fle (get_decimal_ratio cand.2)) = true) :
    selectStep d p acc cand = (cand.1, some ((get_decimal_ratio cand.2).sub d).fabs) := by
  simp [selectStep, hc, hacc]

theorem selectStep_keep (d : Frac) (p : Bool) (acc : List Char × Option Frac)
    (cand : List Char × (ℤ × ℤ)) (mw : Frac) (hacc : acc.2 = some mw)
    (hc : (if p then (get_decimal_ratio cand.2).fle d
      else d.fle (get_decimal_ratio cand.2)) = true)
    (hlt : (((get_decimal_ratio cand.2).sub d).fabs).flt mw = false) :
    selectStep d p acc cand = acc := by
  simp [selectStep, hc, hacc, hlt]

theorem foldl_selectStep_no_contain (d : Frac) (p : Bool)
    (l : List (List Char × (ℤ × ℤ))) (acc : List Char × Option Frac)
    (h : ∀ cand ∈ l, (if p then (get_decimal_ratio cand.2).fle d
      else d.fle (get_decimal_ratio cand.2)) = false) :
    l.foldl (selectStep d p) acc = acc := by
  induction l generalizing acc with
  | nil => rfl
  | cons x t ih =>
    rw [List.foldl_cons, selectStep_skip d p acc x (h x (by simp))]
    exact ih acc (fun c hc => h c (by simp [hc]))

/-! ### C8: the supported-set fast path -/

/-- C8: `select_source_ratio` is idempotent on the supported set — for every
string the membership fast path accepts, the string itself is returned,
before any parsing, classification or containment search happens. -/
theorem C8_select_idempotent_on_supported (s : List Char)
    (h : is_imagen_supported s = true) :
    select_source_ratio s = .ok s := by
  unfold select_source_ratio
  rw [if_pos h]

/-- Witness for C8 at the supported ratio "16:9". -/
theorem C8_witness :
    is_imagen_supported "16:9".toList = true ∧
      select_source_ratio "16:9".toList = .ok "16:9".toList :=
  ⟨by decide, C8_select_idempotent_on_supported "16:9".toList (by decide)⟩

/-! ### C3: what `parse_aspect_ratio` accepts and rejects -/

/-- C3 (amended): `parse_aspect_ratio` succeeds on every string `"W:H"`
whose two ':'-separated components are integer literals — including zero
and negative components, which it does not reject — returning the parsed
pair, and fails with `InvalidRatioFormat` when the string does not split
on ':' into exactly two integer literals (wrong component count or a
non-numeral component). -/
theorem C3_parse_accepts_integer_pairs :
    (∀ a b : List Char, a ≠ [] → b ≠ [] →
      (∀ c ∈ a, c.isDigit = true) → (∀ c ∈ b, c.isDigit = true) →
      parse_aspect_ratio (a ++ ':' :: b) =
          .ok ((digitsVal a : ℤ), (digitsVal b : ℤ)) ∧
        parse_aspect_ratio ('-' :: a ++ ':' :: b) =
          .ok (-(digitsVal a : ℤ), (digitsVal b : ℤ))) ∧
      parse_aspect_ratio [] = .error .invalidRatioFormat ∧
      parse_aspect_ratio "abc".toList = .error .invalidRatioFormat ∧
      parse_aspect_ratio "1:2:3".toList = .error .invalidRatioFormat ∧
      parse_aspect_ratio "1:".toList = .error .invalidRatioFormat := by
  refine ⟨fun a b ha0 hb0 ha hb => ⟨parse_digits a b ha0 hb0 ha hb,
    parse_neg_digits a b ha0 hb0 ha hb⟩, rfl, rfl, rfl, rfl⟩

/-- Witness for C3 at "4:2" and "-4:2". -/
theorem C3_witness :
    parse_aspect_ratio "4:2".toList = .ok (4, 2) ∧
      parse_aspect_ratio "-4:2".toList = .ok (-4, 2) := by
  have h := C3_parse_accepts_integer_pairs.1 ['4'] ['2']
    (by decide) (by decide) (by decide) (by decide)
  exact ⟨h.1, h.2⟩

/-- Counterexample to C3 as stated: the claim says `parse` fails for every
string with a zero or negative component, but "1:0" and "-3:4" both parse
successfully. -/
theorem C3_counterexample :
    parse_aspect_ratio "1:0".toList = .ok (1, 0) ∧
      parse_aspect_ratio "-3:4".toList = .ok (-3, 4) := by
  exact ⟨rfl, rfl⟩

/-! ### C10: zero-height targets reach the unguarded division -/

theorem not_supported_of_last_zero (a : List Char) :
    is_imagen_supported (a ++ ':' :: ['0']) = false := by
  cases hs : is_imagen_supported (a ++ ':' :: ['0']) with
  | false => rfl
  | true =>
    exfalso
    have hlast : (a ++ ':' :: ['0']).getLast? = some '0' := by
      rw [show a ++ ':' :: ['0'] = (a ++ [':']) ++ ['0'] by simp]
      exact List.getLast?_concat _
    rcases (supported_iff _).mp hs with h1 | h1 | h1 | h1 | h1 <;>
      rw [h1] at hlast <;> exact absurd hlast (by decide)

/-- C10: for every ratio string of the form `"W:0"` (`W` a digit string),
`parse_aspect_ratio` succeeds rather than rejecting the input, and the
subsequent decimal-ratio computation divides by zero, so both
`select_source_ratio` and `get_aspect_ratio_strategy` raise the unguarded
`ZeroDivisionError` instead of `InvalidRatioFormat`. -/
theorem C10_zero_height_division (a : List Char) (h0 : a ≠ [])
    (hd : ∀ c ∈ a, c.isDigit = true) :
    parse_aspect_ratio (a ++ ':' :: ['0']) = .ok ((digitsVal a : ℤ), 0) ∧
      select_source_ratio (a ++ ':' :: ['0']) = .error .zeroDivision ∧
      get_aspect_ratio_strategy (a ++ ':' :: ['0']) = .error .zeroDivision := by
  have hp : parse_aspect_ratio (a ++ ':' :: ['0']) = .ok ((digitsVal a : ℤ), 0) := by
    have := parse_digits a ['0'] h0 (by decide) hd (by decide)
    simpa [digitsVal] using this
  have hsup := not_supported_of_last_zero a
  have hsel : select_source_ratio (a ++ ':' :: ['0']) = .error .zeroDivision := by
    unfold select_source_ratio
    rw [if_neg (by simp [hsup]), hp]
    simp
  refine ⟨hp, hsel, ?_⟩
  unfold get_aspect_ratio_strategy
  rw [hp]
  simp [hsup, hsel]

/-- Witness for C10 at "1:0". -/
theorem C10_witness :
    parse_aspect_ratio "1:0".toList = .ok (1, 0) ∧
      select_source_ratio "1:0".toList = .error .zeroDivision ∧
      get_aspect_ratio_strategy "1:0".toList = .error .zeroDivision := by
  have h := C10_zero_height_division ['1'] (by decide) (by decide)
  exact ⟨h.1, h.2.1, h.2.2⟩

/-! ### C1: square targets -/

theorem flt_fabs_zero (W : Frac) (z : ℤ) : (W.fabs).flt ⟨0, z⟩ = false := by
  rw [Frac.flt, decide_eq_false_iff_not, not_lt]
  simp [Frac.fabs]
  exact mul_nonneg (mul_nonneg (abs_nonneg _) (abs_nonneg _)) (mul_self_nonneg z)

theorem selectStep_skip_land (d : Frac) (acc : List Char × Option Frac)
    (cand : List Char × (ℤ × ℤ)) (hc : d.fle (get_decimal_ratio cand.2) = false) :
    selectStep d false acc cand = acc :=
  selectStep_skip d false acc cand (by simpa using hc)

theorem selectStep_take_none_land (d : Frac) (acc : List Char × Option Frac)
    (cand : List Char × (ℤ × ℤ)) (hacc : acc.2 = none)
    (hc : d.fle (get_decimal_ratio cand.2) = true) :
    selectStep d false acc cand = (cand.1, some ((get_decimal_ratio cand.2).sub d).fabs) :=
  selectStep_take_none d false acc cand hacc (by simpa using hc)

theorem selectStep_keep_land (d : Frac) (acc : List Char × Option Frac)
    (cand : List Char × (ℤ × ℤ)) (mw : Frac) (hacc : acc.2 = some mw)
    (hc : d.fle (get_decimal_ratio cand.2) = true)
    (hlt : (((get_decimal_ratio cand.2).sub d).fabs).flt mw = false) :
    selectStep d false acc cand = acc :=
  selectStep_keep d false acc cand mw hacc (by simpa using hc) hlt

theorem select_square_fold (h : ℤ) (hh : h ≠ 0) :
    (IMAGEN_SUPPORTED_RATIOS.foldl (selectStep ⟨h, h⟩ false)
      ("1:1".toList, none)).1 = "1:1".toList := by
  have hh2 : (0 : ℤ) < h * h := mul_self_pos.mpr hh
  have c1 : Frac.fle ⟨h, h⟩ ⟨1, 1⟩ = true := by
    rw [Frac.fle, decide_eq_true_eq]
    show h * h * (1 * 1) ≤ 1 * 1 * (h * h)
    nlinarith [hh2]
  have c2 : Frac.fle ⟨h, h⟩ ⟨3, 4⟩ = false := by
    rw [Frac.fle, decide_eq_false_iff_not, not_le]
    show 3 * 4 * (h * h) < h * h * (4 * 4)
    nlinarith [hh2]
  have c3 : Frac.fle ⟨h, h⟩ ⟨4, 3⟩ = true := by
    rw [Frac.fle, decide_eq_true_eq]
    show h * h * (3 * 3) ≤ 4 * 3 * (h * h)
    nlinarith [hh2]
  have c4 : Frac.fle ⟨h, h⟩ ⟨9, 16⟩ = false := by
    rw [Frac.fle, decide_eq_false_iff_not, not_le]
    show 9 * 16 * (h * h) < h * h * (16 * 16)
    nlinarith [hh2]
  have c5 : Frac.fle ⟨h, h⟩ ⟨16, 9⟩ = true := by
    rw [Frac.fle, decide_eq_true_eq]
    show h * h * (9 * 9) ≤ 16 * 9 * (h * h)
    nlinarith [hh2]
  have hw1 : ((get_decimal_ratio ((1 : ℤ), (1 : ℤ))).sub ⟨h, h⟩).fabs =
      (⟨0, |h|⟩ : Frac) := by
    simp [get_decimal_ratio, Frac.sub, Frac.fabs]
  have s1 : selectStep ⟨h, h⟩ false ("1:1".toList, none) ("1:1".toList, (1, 1)) =
      ("1:1".toList, some ⟨0, |h|⟩) := by
    rw [selectStep_take_none_land _ _ _ rfl c1, hw1]
  have s2 : selectStep ⟨h, h⟩ false ("1:1".toList, some ⟨0, |h|⟩) ("3:4".toList, (3, 4)) =
      ("1:1".toList, some ⟨0, |h|⟩) := selectStep_skip_land _ _ _ c2
  have s3 : selectStep ⟨h, h⟩ false ("1:1".toList, some ⟨0, |h|⟩) ("4:3".toList, (4, 3)) =
      ("1:1".toList, some ⟨0, |h|⟩) :=
    selectStep_keep_land _ _ _ _ rfl c3 (flt_fabs_zero _ _)
  have s4 : selectStep ⟨h, h⟩ false ("1:1".toList, some ⟨0, |h|⟩) ("9:16".toList, (9, 16)) =
      ("1:1".toList, some ⟨0, |h|⟩) := selectStep_skip_land _ _ _ c4
  have s5 : selectStep ⟨h, h⟩ false ("1:1".toList, some ⟨0, |h|⟩) ("16:9".toList, (16, 9)) =
      ("1:1".toList, some ⟨0, |h|⟩) :=
    selectStep_keep_land _ _ _ _ rfl c5 (flt_fabs_zero _ _)
  simp only [IMAGEN_SUPPORTED_RATIOS, List.foldl_cons, List.foldl_nil]
  rw [s1, s2, s3, s4, s5]

/-- C1 (amended): for every target ratio string whose decimal value `w/h`
equals 1.0 exactly, `select_source_ratio` returns "1:1".  (Square targets
whose decimal is within 0.01 of 1.0 but not equal to it are classified
square, yet the containment search still iterates over every supported
ratio rather than only the square one, so they can return a non-square
ratio — see the counterexample.) -/
theorem C1_exact_square_selects_1_1 (s : List Char) (w h : ℤ)
    (hp : parse_aspect_ratio s = .ok (w, h)) (hwh : w = h) (hh : h ≠ 0) :
    select_source_ratio s = .ok "1:1".toList := by
  subst hwh
  by_cases hsup : is_imagen_supported s = true
  · rcases (supported_iff s).mp hsup with h1 | h1 | h1 | h1 | h1 <;> subst h1
    · rfl
    · rw [show parse_aspect_ratio "3:4".toList = .ok ((3 : ℤ), (4 : ℤ)) from rfl] at hp
      simp only [Except.ok.injEq, Prod.mk.injEq] at hp
      omega
    · rw [show parse_aspect_ratio "4:3".toList = .ok ((4 : ℤ), (3 : ℤ)) from rfl] at hp
      simp only [Except.ok.injEq, Prod.mk.injEq] at hp
      omega
    · rw [show parse_aspect_ratio "9:16".toList = .ok ((9 : ℤ), (16 : ℤ)) from rfl] at hp
      simp only [Except.ok.injEq, Prod.mk.injEq] at hp
      omega
    · rw [show parse_aspect_ratio "16:9".toList = .ok ((16 : ℤ), (9 : ℤ)) from rfl] at hp
      simp only [Except.ok.injEq, Prod.mk.injEq] at hp
      omega
  · have habs : 0 < |w| := abs_pos.mpr hh
    have hport : Frac.flt ⟨w, w⟩ (Frac.ofInt 1) = false := by
      rw [Frac.flt, decide_eq_false_iff_not, not_lt]
      show 1 * 1 * (w * w) ≤ w * w * (1 * 1)
      nlinarith []
    have hsq : (((Frac.mk w w).sub (Frac.ofInt 1)).fabs).flt ⟨1, 100⟩ = true := by
      rw [Frac.flt, decide_eq_true_eq]
      show |w * 1 - 1 * w| * |w * 1| * (100 * 100) < 1 * 100 * (|w * 1| * |w * 1|)
      simp only [mul_one, one_mul, sub_self, abs_zero, zero_mul]
      nlinarith [habs]
    unfold select_source_ratio
    rw [if_neg (by simp [hsup]), hp]
    show (if w = 0 then Except.error PyError.zeroDivision else _) = _
    rw [if_neg hh]
    simp only [get_decimal_ratio, hport, hsq]
    simp only [if_true, if_false, Bool.false_eq_true, List.headD]
    rw [select_square_fold w hh]

/-- Witness for C1 at "2:2". -/
theorem C1_witness :
    parse_aspect_ratio "2:2".toList = .ok (2, 2) ∧
      select_source_ratio "2:2".toList = .ok "1:1".toList :=
  ⟨rfl, C1_exact_square_selects_1_1 "2:2".toList 2 2 rfl rfl (by decide)⟩

/-- Counterexample to C1 as stated: "199:200" has decimal value within 0.01
of 1.0, yet `select_source_ratio` considers every supported ratio and
returns "3:4", not "1:1". -/
theorem C1_counterexample :
    |(199 : ℚ) / 200 - 1| < 1 / 100 ∧
      select_source_ratio "199:200".toList = .ok "3:4".toList ∧
      "3:4".toList ≠ "1:1".toList :=
  ⟨by rw [abs_lt]; constructor <;> norm_num, rfl, by decide⟩

/-! ### C2: the pathological-ratio fallback -/

theorem ratioContains_self (d : ℚ) : ratioContains d d := by
  unfold ratioContains
  split <;> exact le_rfl

/-- C2 (amended): when no supported ratio satisfies the containment rule
(candidate decimal ≤ target decimal for portrait targets, ≥ for landscape
targets), `select_source_ratio` does not fail: it falls back to the first
entry of the orientation preference list — "9:16" for portrait targets and
"16:9" for landscape targets — not to "16:9" unconditionally. -/
theorem C2_no_containment_default (s : List Char) (w h : ℤ)
    (hp : parse_aspect_ratio s = .ok (w, h)) (hw : 0 < w) (hh : 0 < h)
    (hnc : ∀ cand ∈ IMAGEN_SUPPORTED_RATIOS,
      ¬ ratioContains ((w : ℚ) / (h : ℚ)) (get_decimal_ratio cand.2).toRat) :
    select_source_ratio s =
      .ok (if (w : ℚ) / (h : ℚ) < 1 then "9:16".toList else "16:9".toList) := by
  have hh0 : h ≠ 0 := hh.ne'
  have hsup : is_imagen_supported s = false := by
    cases hb : is_imagen_supported s with
    | false => rfl
    | true =>
      exfalso
      rcases (supported_iff s).mp hb with h1 | h1 | h1 | h1 | h1 <;> subst h1
      · rw [show parse_aspect_ratio "1:1".toList = .ok ((1 : ℤ), (1 : ℤ)) from rfl] at hp
        simp only [Except.ok.injEq, Prod.mk.injEq] at hp
        obtain ⟨e1, e2⟩ := hp
        subst e1; subst e2
        exact hnc ("1:1".toList, (1, 1)) (by simp [IMAGEN_SUPPORTED_RATIOS])
          (ratioContains_self _)
      · rw [show parse_aspect_ratio "3:4".toList = .ok ((3 : ℤ), (4 : ℤ)) from rfl] at hp
        simp only [Except.ok.injEq, Prod.mk.injEq] at hp
        obtain ⟨e1, e2⟩ := hp
        subst e1; subst e2
        exact hnc ("3:4".toList, (3, 4)) (by simp [IMAGEN_SUPPORTED_RATIOS])
          (ratioContains_self _)
      · rw [show parse_aspect_ratio "4:3".toList = .ok ((4 : ℤ), (3 : ℤ)) from rfl] at hp
        simp only [Except.ok.injEq, Prod.mk.injEq] at hp
        obtain ⟨e1, e2⟩ := hp
        subst e1; subst e2
        exact hnc ("4:3".toList, (4, 3)) (by simp [IMAGEN_SUPPORTED_RATIOS])
          (ratioContains_self _)
      · rw [show parse_aspect_ratio "9:16".toList = .ok ((9 : ℤ), (16 : ℤ)) from rfl] at hp
        simp only [Except.ok.injEq, Prod.mk.injEq] at hp
        obtain ⟨e1, e2⟩ := hp
        subst e1; subst e2
        exact hnc ("9:16".toList, (9, 16)) (by simp [IMAGEN_SUPPORTED_RATIOS])
          (ratioContains_self _)
      · rw [show parse_aspect_ratio "16:9".toList = .ok ((16 : ℤ), (9 : ℤ)) from rfl] at hp
        simp only [Except.ok.injEq, Prod.mk.injEq] at hp
        obtain ⟨e1, e2⟩ := hp
        subst e1; subst e2
        exact hnc ("16:9".toList, (16, 9)) (by simp [IMAGEN_SUPPORTED_RATIOS])
          (ratioContains_self _)
  by_cases hdlt : (w : ℚ) / (h : ℚ) < 1
  · have h916 : ¬ ((9 : ℚ) / 16 ≤ (w : ℚ) / (h : ℚ)) := by
      have := hnc ("9:16".toList, (9, 16)) (by simp [IMAGEN_SUPPORTED_RATIOS])
      rw [ratioContains, if_pos hdlt] at this
      intro hcon
      exact this (by push_cast [get_decimal_ratio, Frac.toRat]; exact hcon)
    have hd916 : (w : ℚ) / (h : ℚ) < 9 / 16 := not_le.mp h916
    have hport : Frac.flt ⟨w, h⟩ (Frac.ofInt 1) = true := by
      rw [Frac.flt_iff _ _ hh0 one_ne_zero, Frac.toRat_ofInt]
      exact hdlt
    have hsq : (((Frac.mk w h).sub (Frac.ofInt 1)).fabs).flt ⟨1, 100⟩ = false := by
      rw [Bool.eq_false_iff]
      intro hcon
      rw [Frac.flt_iff _ _ (by simp [Frac.sub, Frac.fabs, Frac.ofInt, abs_ne_zero, hh0])
        (by decide), Frac.toRat_fabs, Frac.toRat_sub _ _ hh0 one_ne_zero,
        Frac.toRat_ofInt] at hcon
      have h1 : ((1 : ℤ) : ℚ) = 1 := by norm_num
      rw [h1] at hcon
      have hc2 : (w : ℚ) / (h : ℚ) - 1 > -(1 / 100) := by
        have := (abs_lt.mp (by
          calc |(w : ℚ) / (h : ℚ) - 1| < (Frac.mk 1 100).toRat := hcon
          _ = 1 / 100 := by norm_num [Frac.toRat])).1
        linarith
      linarith
    have hcond : ∀ cand ∈ IMAGEN_SUPPORTED_RATIOS,
        (if (true : Bool) = true then (get_decimal_ratio cand.2).fle ⟨w, h⟩
          else Frac.fle ⟨w, h⟩ (get_decimal_ratio cand.2)) = false := by
      intro cand hc
      rw [if_pos rfl, Bool.eq_false_iff]
      intro hcon
      fin_cases hc <;>
        (rw [Frac.fle_iff _ _ (by decide) hh0] at hcon
         norm_num [Frac.toRat, get_decimal_ratio] at hcon
         linarith [hd916])
    unfold select_source_ratio
    rw [if_neg (by simp [hsup]), hp]
    show (if h = 0 then Except.error PyError.zeroDivision else _) = _
    rw [if_neg hh0]
    simp only [get_decimal_ratio, hport, hsq]
    simp only [if_true, if_false, Bool.false_eq_true, List.headD]
    rw [foldl_selectStep_no_contain _ _ _ _ hcond, if_pos hdlt]
  · have h169 : ¬ ((w : ℚ) / (h : ℚ) ≤ (16 : ℚ) / 9) := by
      have := hnc ("16:9".toList, (16, 9)) (by simp [IMAGEN_SUPPORTED_RATIOS])
      rw [ratioContains, if_neg hdlt] at this
      intro hcon
      exact this (by push_cast [get_decimal_ratio, Frac.toRat]; exact hcon)
    have hd169 : (16 : ℚ) / 9 < (w : ℚ) / (h : ℚ) := not_le.mp h169
    have hport : Frac.flt ⟨w, h⟩ (Frac.ofInt 1) = false := by
      rw [Bool.eq_false_iff]
      intro hcon
      rw [Frac.flt_iff _ _ hh0 one_ne_zero, Frac.toRat_ofInt] at hcon
      exact hdlt hcon
    have hsq : (((Frac.mk w h).sub (Frac.ofInt 1)).fabs).flt ⟨1, 100⟩ = false := by
      rw [Bool.eq_false_iff]
      intro hcon
      rw [Frac.flt_iff _ _ (by simp [Frac.sub, Frac.fabs, Frac.ofInt, abs_ne_zero, hh0])
        (by decide), Frac.toRat_fabs, Frac.toRat_sub _ _ hh0 one_ne_zero,
        Frac.toRat_ofInt] at hcon
      have h1 : ((1 : ℤ) : ℚ) = 1 := by norm_num
      rw [h1] at hcon
      have hc2 : (w : ℚ) / (h : ℚ) - 1 < 1 / 100 := by
        have := (abs_lt.mp (by
          calc |(w : ℚ) / (h : ℚ) - 1| < (Frac.mk 1 100).toRat := hcon
          _ = 1 / 100 := by norm_num [Frac.toRat])).2
        linarith
      linarith
    have hcond : ∀ cand ∈ IMAGEN_SUPPORTED_RATIOS,
        (if (false : Bool) = true then (get_decimal_ratio cand.2).fle ⟨w, h⟩
          else Frac.fle ⟨w, h⟩ (get_decimal_ratio cand.2)) = false := by
      intro cand hc
      rw [if_neg (by simp), Bool.eq_false_iff]
      intro hcon
      fin_cases hc <;>
        (rw [Frac.fle_iff _ _ hh0 (by decide)] at hcon
         norm_num [Frac.toRat, get_decimal_ratio] at hcon
         linarith [hd169])
    unfold select_source_ratio
    rw [if_neg (by simp [hsup]), hp]
    show (if h = 0 then Except.error PyError.zeroDivision else _) = _
    rw [if_neg hh0]
    simp only [get_decimal_ratio, hport, hsq]
    simp only [if_true, if_false, Bool.false_eq_true, List.headD]
    rw [foldl_selectStep_no_contain _ _ _ _ hcond, if_neg hdlt]

/-- Witness for C2 at the pathological portrait ratio "2:7". -/
theorem C2_witness :
    parse_aspect_ratio "2:7".toList = .ok (2, 7) ∧
      select_source_ratio "2:7".toList = .ok "9:16".toList := by
  have hnc : ∀ cand ∈ IMAGEN_SUPPORTED_RATIOS,
      ¬ ratioContains (((2 : ℤ) : ℚ) / ((7 : ℤ) : ℚ)) (get_decimal_ratio cand.2).toRat := by
    intro cand hc
    fin_cases hc <;> norm_num [ratioContains, get_decimal_ratio, Frac.toRat]
  have h := C2_no_containment_default "2:7".toList 2 7 rfl (by norm_num) (by norm_num) hnc
  rw [if_pos (by norm_num)] at h
  exact ⟨rfl, h⟩

/-- Counterexample to C2 as stated: "2:7" is a pathological portrait target
(no supported ratio satisfies containment), yet `select_source_ratio`
returns "9:16", not the claimed landscape default "16:9". -/
theorem C2_counterexample :
    (∀ cand ∈ IMAGEN_SUPPORTED_RATIOS,
      ¬ ratioContains (((2 : ℤ) : ℚ) / ((7 : ℤ) : ℚ)) (get_decimal_ratio cand.2).toRat) ∧
      select_source_ratio "2:7".toList = .ok "9:16".toList ∧
      "9:16".toList ≠ "16:9".toList := by
  refine ⟨?_, rfl, by decide⟩
  intro cand hc
  fin_cases hc <;> norm_num [ratioContains, get_decimal_ratio, Frac.toRat]

/-! ### C9: unknown anchors behave as "center" -/

theorem anchorOffsets_default (sw sh nw nh : ℤ) (a : List Char)
    (h : a ∉ ["center".toList, "top".toList, "bottom".toList,
      "left".toList, "right".toList]) :
    anchorOffsets sw sh nw nh a = anchorOffsets sw sh nw nh "center".toList := by
  simp only [List.mem_cons, List.not_mem_nil, or_false, not_or] at h
  obtain ⟨h1, h2, h3, h4, h5⟩ := h
  unfold anchorOffsets
  rw [if_neg h1, if_neg h2, if_neg h3, if_neg h4, if_neg h5, if_pos rfl]
  by_cases hs : a = "smart".toList
  · rw [if_pos hs]
  · rw [if_neg hs]

/-- C9: for every source size, target ratio, and anchor value outside
{center, top, bottom, left, right} — including "smart" and any unknown
string — `calculate_crop_box` returns exactly the same box as with anchor
"center"; no anchor value changes the outcome or raises. -/
theorem C9_unknown_anchor_center (src tgt : ℤ × ℤ) (a : List Char)
    (h : a ∉ ["center".toList, "top".toList, "bottom".toList,
      "left".toList, "right".toList]) :
    calculate_crop_box src tgt a = calculate_crop_box src tgt "center".toList := by
  simp only [calculate_crop_box]
  rw [anchorOffsets_default _ _ _ _ _ h]

/-- Witness for C9 at anchor "smart" on a 1024×768 source with target 2:7. -/
theorem C9_witness :
    ("smart".toList ∉ ["center".toList, "top".toList, "bottom".toList,
      "left".toList, "right".toList]) ∧
      calculate_crop_box (1024, 768) (2, 7) "smart".toList =
        calculate_crop_box (1024, 768) (2, 7) "center".toList :=
  ⟨by decide, C9_unknown_anchor_center (1024, 768) (2, 7) "smart".toList (by decide)⟩

/-! ### C4: crop-box bounds and ratio accuracy -/

theorem anchorOffsets_bounds (sw sh nw nh : ℤ) (a : List Char)
    (h1 : 0 ≤ sw - nw) (h2 : 0 ≤ sh - nh) :
    0 ≤ (anchorOffsets sw sh nw nh a).1 ∧ (anchorOffsets sw sh nw nh a).1 ≤ sw - nw ∧
      0 ≤ (anchorOffsets sw sh nw nh a).2 ∧ (anchorOffsets sw sh nw nh a).2 ≤ sh - nh := by
  have e2 : (0 : ℤ) ≤ 2 := by norm_num
  have fd1 : 0 ≤ Int.fdiv (sw - nw) 2 := Int.fdiv_nonneg h1 e2
  have fd1' : Int.fdiv (sw - nw) 2 ≤ sw - nw := by
    rw [Int.fdiv_eq_ediv _ e2]
    exact Int.ediv_le_self _ h1
  have fd2 : 0 ≤ Int.fdiv (sh - nh) 2 := Int.fdiv_nonneg h2 e2
  have fd2' : Int.fdiv (sh - nh) 2 ≤ sh - nh := by
    rw [Int.fdiv_eq_ediv _ e2]
    exact Int.ediv_le_self _ h2
  unfold anchorOffsets
  split_ifs <;> refine ⟨?_, ?_, ?_, ?_⟩ <;>
    first
      | exact fd1 | exact fd1' | exact fd2 | exact fd2'
      | exact le_refl _ | exact h1 | exact h2

theorem calculate_eq_fit_height (sw sh tw th : ℤ) (anchor : List Char)
    (htw : 0 < tw) (hth : 0 < th) (hsw0 : 0 ≤ sw) (hsh0 : 0 ≤ sh)
    (hbr : sh < (sw * th) / tw) :
    calculate_crop_box (sw, sh) (tw, th) anchor =
      .ok ((anchorOffsets sw sh ((sh * tw) / th) sh anchor).1,
        (anchorOffsets sw sh ((sh * tw) / th) sh anchor).2,
        (anchorOffsets sw sh ((sh * tw) / th) sh anchor).1 + (sh * tw) / th,
        (anchorOffsets sw sh ((sh * tw) / th) sh anchor).2 + sh) := by
  have e1 : pyTrunc ((Frac.ofInt sw).fdiv ⟨tw, th⟩) =
      (sw * th) / tw := by
    show Int.tdiv (sw * th) (1 * tw) = (sw * th) / tw
    rw [one_mul, Int.tdiv_eq_ediv (mul_nonneg hsw0 hth.le) htw.le]
  have e2 : pyTrunc ((Frac.ofInt sh).mul ⟨tw, th⟩) =
      (sh * tw) / th := by
    show Int.tdiv (sh * tw) (1 * th) = (sh * tw) / th
    rw [one_mul, Int.tdiv_eq_ediv (mul_nonneg hsh0 htw.le) hth.le]
  simp only [calculate_crop_box, get_decimal_ratio, e1, e2]
  rw [if_neg hth.ne', if_neg htw.ne', if_pos hbr]

theorem calculate_eq_fit_width (sw sh tw th : ℤ) (anchor : List Char)
    (htw : 0 < tw) (hth : 0 < th) (hsw0 : 0 ≤ sw) (hsh0 : 0 ≤ sh)
    (hbr : ¬ sh < (sw * th) / tw) :
    calculate_crop_box (sw, sh) (tw, th) anchor =
      .ok ((anchorOffsets sw sh sw ((sw * th) / tw) anchor).1,
        (anchorOffsets sw sh sw ((sw * th) / tw) anchor).2,
        (anchorOffsets sw sh sw ((sw * th) / tw) anchor).1 + sw,
        (anchorOffsets sw sh sw ((sw * th) / tw) anchor).2 + (sw * th) / tw) := by
  have e1 : pyTrunc ((Frac.ofInt sw).fdiv ⟨tw, th⟩) =
      (sw * th) / tw := by
    show Int.tdiv (sw * th) (1 * tw) = (sw * th) / tw
    rw [one_mul, Int.tdiv_eq_ediv (mul_nonneg hsw0 hth.le) htw.le]
  have e2 : pyTrunc ((Frac.ofInt sh).mul ⟨tw, th⟩) =
      (sh * tw) / th := by
    show Int.tdiv (sh * tw) (1 * th) = (sh * tw) / th
    rw [one_mul, Int.tdiv_eq_ediv (mul_nonneg hsh0 htw.le) hth.le]
  simp only [calculate_crop_box, get_decimal_ratio, e1, e2]
  rw [if_neg hth.ne', if_neg htw.ne', if_neg hbr]

/-- C4 (amended): for every positive target ratio and every source at least
as large as the target pair, the box returned by `calculate_crop_box`
satisfies `0 ≤ left < right ≤ sourceWidth` and
`0 ≤ top < bottom ≤ sourceHeight` for every anchor value; and whenever both
box sides are at least 100 pixels, `(right-left)/(bottom-top)` is within 1%
of the target decimal ratio.  (Without the 100-pixel condition the 1% bound
fails for small sources — see the counterexample.) -/
theorem C4_crop_box_main (sw sh tw th : ℤ) (anchor : List Char)
    (htw : 0 < tw) (hth : 0 < th) (hsw : tw ≤ sw) (hsh : th ≤ sh) :
    ∃ L T R B, calculate_crop_box (sw, sh) (tw, th) anchor = .ok (L, T, R, B) ∧
      0 ≤ L ∧ L < R ∧ R ≤ sw ∧ 0 ≤ T ∧ T < B ∧ B ≤ sh ∧
      (100 ≤ R - L → 100 ≤ B - T →
        |((R - L : ℤ) : ℚ) / ((B - T : ℤ) : ℚ) - (tw : ℚ) / (th : ℚ)| ≤
          (tw : ℚ) / (th : ℚ) / 100) := by
  have hsw0 : 0 < sw := lt_of_lt_of_le htw hsw
  have hsh0 : 0 < sh := lt_of_lt_of_le hth hsh
  have hthQ : (0 : ℚ) < (th : ℚ) := by exact_mod_cast hth
  have htwQ : (0 : ℚ) < (tw : ℚ) := by exact_mod_cast htw
  by_cases hbr : sh < (sw * th) / tw
  · -- fit by height: box is ((sh*tw)/th) × sh
    obtain ⟨nw, hnw⟩ : ∃ v, v = (sh * tw) / th := ⟨_, rfl⟩
    have f1 : nw * th ≤ sh * tw := by
      rw [hnw]
      exact (Int.le_ediv_iff_mul_le hth).mp le_rfl
    have f2 : sh * tw < (nw + 1) * th := by
      rw [hnw]
      exact (Int.ediv_lt_iff_lt_mul hth).mp (lt_add_one _)
    have hnw1 : tw ≤ nw := by
      rw [hnw, Int.le_ediv_iff_mul_le hth]
      nlinarith [mul_le_mul_of_nonneg_left hsh htw.le]
    have hb2 : (sh + 1) * tw ≤ sw * th :=
      (Int.le_ediv_iff_mul_le htw).mp (Int.add_one_le_iff.mpr hbr)
    have hnwlt : nw < sw := by
      rw [hnw, Int.ediv_lt_iff_lt_mul hth]
      nlinarith [hb2, htw]
    obtain ⟨o1, o2, o3, o4⟩ :=
      anchorOffsets_bounds sw sh nw sh anchor (by omega) (by omega)
    rw [calculate_eq_fit_height sw sh tw th anchor htw hth hsw0.le hsh0.le hbr, ← hnw]
    refine ⟨_, _, _, _, rfl, o1, by omega, by omega, o3, by omega, by omega, ?_⟩
    intro hR hB
    rw [add_sub_cancel_left] at hR
    rw [show ((anchorOffsets sw sh nw sh anchor).1 + nw -
        (anchorOffsets sw sh nw sh anchor).1 : ℤ) = nw from by ring,
      show ((anchorOffsets sw sh nw sh anchor).2 + sh -
        (anchorOffsets sw sh nw sh anchor).2 : ℤ) = sh from by ring]
    have hshQ : (0 : ℚ) < (sh : ℚ) := by exact_mod_cast hsh0
    have hnwQ : (0 : ℚ) < (nw : ℚ) := by
      have h0 : (0 : ℤ) < nw := by omega
      exact_mod_cast h0
    have f1Q : (nw : ℚ) * th ≤ sh * tw := by exact_mod_cast f1
    have f2Q : (sh : ℚ) * tw < (nw + 1) * th := by exact_mod_cast f2
    have hRQ : (100 : ℚ) ≤ (nw : ℚ) := by exact_mod_cast hR
    have ha_le : (nw : ℚ) / (sh : ℚ) ≤ (tw : ℚ) / (th : ℚ) := by
      rw [div_le_div_iff₀ hshQ hthQ]
      calc (nw : ℚ) * th ≤ sh * tw := f1Q
        _ = tw * sh := mul_comm _ _
    have hd_lt : (tw : ℚ) / (th : ℚ) - (nw : ℚ) / (sh : ℚ) < 1 / (sh : ℚ) := by
      rw [div_sub_div _ _ hthQ.ne' hshQ.ne', div_lt_div_iff₀ (by positivity) hshQ]
      have key : (tw : ℚ) * sh - th * nw < th := by nlinarith [f2Q]
      nlinarith [mul_lt_mul_of_pos_right key hshQ]
    have h1sh : 1 / (sh : ℚ) ≤ (tw : ℚ) / (th : ℚ) / 100 := by
      rw [div_div, div_le_div_iff₀ hshQ (by positivity)]
      nlinarith [mul_le_mul_of_nonneg_right hRQ hthQ.le, f1Q]
    rw [abs_sub_comm, abs_of_nonneg (by linarith)]
    linarith
  · -- fit by width: box is sw × ((sw*th)/tw)
    obtain ⟨nh, hnh⟩ : ∃ v, v = (sw * th) / tw := ⟨_, rfl⟩
    have f1 : nh * tw ≤ sw * th := by
      rw [hnh]
      exact (Int.le_ediv_iff_mul_le htw).mp le_rfl
    have f2 : sw * th < (nh + 1) * tw := by
      rw [hnh]
      exact (Int.ediv_lt_iff_lt_mul htw).mp (lt_add_one _)
    have hnh1 : th ≤ nh := by
      rw [hnh, Int.le_ediv_iff_mul_le htw]
      nlinarith [mul_le_mul_of_nonneg_right hsw hth.le]
    have hnhle : nh ≤ sh := by
      rw [hnh]
      omega
    obtain ⟨o1, o2, o3, o4⟩ :=
      anchorOffsets_bounds sw sh sw nh anchor (by omega) (by omega)
    rw [calculate_eq_fit_width sw sh tw th anchor htw hth hsw0.le hsh0.le hbr, ← hnh]
    refine ⟨_, _, _, _, rfl, o1, by omega, by omega, o3, by omega, by omega, ?_⟩
    intro hR hB
    rw [add_sub_cancel_left] at hB
    rw [show ((anchorOffsets sw sh sw nh anchor).1 + sw -
        (anchorOffsets sw sh sw nh anchor).1 : ℤ) = sw from by ring,
      show ((anchorOffsets sw sh sw nh anchor).2 + nh -
        (anchorOffsets sw sh sw nh anchor).2 : ℤ) = nh from by ring]
    have hswQ : (0 : ℚ) < (sw : ℚ) := by exact_mod_cast hsw0
    have hnhQ : (0 : ℚ) < (nh : ℚ) := by
      have h0 : (0 : ℤ) < nh := by omega
      exact_mod_cast h0
    have f1Q : (nh : ℚ) * tw ≤ sw * th := by exact_mod_cast f1
    have f2Q : (sw : ℚ) * th < (nh + 1) * tw := by exact_mod_cast f2
    have hBQ : (100 : ℚ) ≤ (nh : ℚ) := by exact_mod_cast hB
    have ha_ge : (tw : ℚ) / (th : ℚ) ≤ (sw : ℚ) / (nh : ℚ) := by
      rw [div_le_div_iff₀ hthQ hnhQ]
      calc (tw : ℚ) * nh = nh * tw := mul_comm _ _
        _ ≤ sw * th := f1Q
    have hd_lt : (sw : ℚ) / (nh : ℚ) - (tw : ℚ) / (th : ℚ) <
        (tw : ℚ) / ((th : ℚ) * (nh : ℚ)) := by
      rw [div_sub_div _ _ hnhQ.ne' hthQ.ne', div_lt_div_iff₀ (by positivity) (by positivity)]
      have key : (sw : ℚ) * th - nh * tw < tw := by nlinarith [f2Q]
      nlinarith [mul_lt_mul_of_pos_right key (mul_pos hnhQ hthQ)]
    have h2 : (tw : ℚ) / ((th : ℚ) * (nh : ℚ)) ≤ (tw : ℚ) / (th : ℚ) / 100 := by
      rw [div_div, div_le_div_iff₀ (by positivity) (by positivity)]
      nlinarith [mul_le_mul_of_nonneg_left hBQ (mul_pos htwQ hthQ).le]
    rw [abs_of_nonneg (by linarith)]
    linarith

/-- Witness for C4: a 1024×768 source with target 16:9 at anchor "center". -/
theorem C4_witness :
    (0 : ℤ) < 16 ∧ (0 : ℤ) < 9 ∧ (16 : ℤ) ≤ 1024 ∧ (9 : ℤ) ≤ 768 ∧
      (∃ L T R B,
        calculate_crop_box (1024, 768) (16, 9) "center".toList = .ok (L, T, R, B) ∧
          0 ≤ L ∧ L < R ∧ R ≤ 1024 ∧ 0 ≤ T ∧ T < B ∧ B ≤ 768 ∧
          (100 ≤ R - L → 100 ≤ B - T →
            |((R - L : ℤ) : ℚ) / ((B - T : ℤ) : ℚ) - (16 : ℚ) / (9 : ℚ)| ≤
              (16 : ℚ) / (9 : ℚ) / 100)) :=
  ⟨by decide, by decide, by decide, by decide,
    C4_crop_box_main 1024 768 16 9 "center".toList
      (by decide) (by decide) (by decide) (by decide)⟩

/-- Counterexample to C4 as stated: a 7×5 source is large enough to fit a
3:2 target (a 6×4 sub-rectangle would be exact), yet the computed box is
7×4, whose ratio 1.75 is off the target 1.5 by more than 1%. -/
theorem C4_counterexample :
    (3 : ℤ) ≤ 7 ∧ (2 : ℤ) ≤ 5 ∧
      calculate_crop_box (7, 5) (3, 2) "center".toList = .ok (0, 0, 7, 4) ∧
      ¬ (|((7 : ℚ)) / 4 - 3 / 2| ≤ (3 : ℚ) / 2 / 100) := by
  refine ⟨by decide, by decide, rfl, ?_⟩
  intro hcon
  rw [show (7 : ℚ) / 4 - 3 / 2 = 1 / 4 from by norm_num,
    abs_of_nonneg (by norm_num)] at hcon
  norm_num at hcon

/-! ### C5, C6: the retry loop and the fallback chain -/

theorem tryFallbacks_attempted (base : ℚ) (l : List (List Char × GenBehavior))
    (att : List (List Char)) (e : Option (List Char)) :
    ∃ t, (tryFallbacks base l att e).generators_attempted = att ++ t := by
  induction l generalizing att e with
  | nil => exact ⟨[], by simp [tryFallbacks]⟩
  | cons x rest ih =>
    obtain ⟨name, b⟩ := x
    by_cases hr : (try_generator_with_retry b base 1).success
    · exact ⟨[name], by simp [tryFallbacks, hr]⟩
    · obtain ⟨t, ht⟩ := ih (att ++ [name]) (try_generator_with_retry b base 1).error
      refine ⟨name :: t, ?_⟩
      simp only [tryFallbacks, hr, if_false, Bool.false_eq_true]
      rw [ht]
      simp

/-- C5: if a generator's first attempt fails with a non-retryable error
(one matching no retryable substring, e.g. "content policy"), the retry
loop makes exactly one generation call — no further attempts and no
backoff delay — and the orchestrator proceeds to the next generator in the
chain. -/
theorem C5_nonretryable_single_attempt (pn n1 : List Char) (b b1 : GenBehavior)
    (rest : List (List Char × GenBehavior)) (mr : ℕ) (base : ℚ) (m : List Char)
    (hb : b 0 = .err m) (hm : is_retryable_error m = false) :
    try_generator_with_retry b base mr = ⟨false, none, some m, 1, []⟩ ∧
      (generate_with_fallback
        ⟨some (pn, b), mr, base, true, (n1, b1) :: rest⟩).generators_attempted.take 2 =
        [pn, n1] := by
  have h1 : try_generator_with_retry b base mr = ⟨false, none, some m, 1, []⟩ := by
    unfold try_generator_with_retry
    show retryGo b base mr 0 (mr + 1) [] = _
    rw [retryGo]
    simp [hb, hm]
  refine ⟨h1, ?_⟩
  unfold generate_with_fallback
  simp only [h1]
  show (tryFallbacks base ((n1, b1) :: rest) [pn] (some m)).generators_attempted.take 2 = _
  simp only [tryFallbacks]
  by_cases hr : (try_generator_with_retry b1 base 1).success
  · simp [hr]
  · simp only [hr, if_false, Bool.false_eq_true]
    obtain ⟨t, ht⟩ := tryFallbacks_attempted base rest ([pn] ++ [n1])
      (try_generator_with_retry b1 base 1).error
    rw [ht]
    simp [List.take]

theorem retryGo_all_retryable_err (b : GenBehavior) (base : ℚ) (mr : ℕ)
    (ms : ℕ → List Char)
    (hb : ∀ i, b i = .err (ms i) ∧ is_retryable_error (ms i) = true) :
    ∀ fuel attempt acc, (retryGo b base mr attempt fuel acc).success = false := by
  intro fuel
  induction fuel with
  | zero => intro attempt acc; rfl
  | succ n ih =>
    intro attempt acc
    rw [retryGo, (hb attempt).1]
    simp only [(hb attempt).2, if_true]
    by_cases ha : attempt < mr
    · simp only [ha, if_true, if_pos]
      exact ih _ _
    · simp [ha]

/-- C6: if the primary generator fails every attempt with retryable errors
and the first fallback generator succeeds on its first attempt, the
orchestrator result has `success = true`, `fallback_used = true`, and the
ordered attempted-generator list is exactly [primary, fallback1]; no later
generator is attempted. -/
theorem C6_fallback_first_success (pn n1 : List Char) (b b1 : GenBehavior)
    (rest : List (List Char × GenBehavior)) (mr : ℕ) (base : ℚ)
    (ms : ℕ → List Char) (p : ℕ)
    (hb : ∀ i, b i = .err (ms i) ∧ is_retryable_error (ms i) = true)
    (h1 : b1 0 = .ok p) :
    generate_with_fallback ⟨some (pn, b), mr, base, true, (n1, b1) :: rest⟩ =
      ⟨true, some p, none, some n1, true, [pn, n1]⟩ := by
  have hfail : (try_generator_with_retry b base mr).success = false :=
    retryGo_all_retryable_err b base mr ms hb (mr + 1) 0 []
  have hfb1 : try_generator_with_retry b1 base 1 = ⟨true, some p, none, 1, []⟩ := by
    unfold try_generator_with_retry
    show retryGo b1 base 1 0 2 [] = _
    rw [retryGo, h1]
    rfl
  unfold generate_with_fallback
  simp only [hfail, if_false, Bool.false_eq_true, if_true]
  show tryFallbacks base ((n1, b1) :: rest) [pn] _ = _
  simp only [tryFallbacks, hfb1]
  simp

/-- C7: for every batch of N requests, `generate_batch` returns per-item
results of length N aligned to input order (the i-th result is exactly the
converted outcome of the i-th pipeline, so one item's failure never aborts
or cancels its siblings), `successful + failed = N`, and the overall
success flag is true exactly when `failed = 0`. -/
theorem C7_batch_shape (behavior : ℕ → PipelineOutcome) (n : ℕ) :
    (generate_batch behavior n).results.length = n ∧
      (generate_batch behavior n).total_requests = n ∧
      (generate_batch behavior n).successful + (generate_batch behavior n).failed = n ∧
      ((generate_batch behavior n).success = true ↔ (generate_batch behavior n).failed = 0) ∧
      ∀ i : ℕ, (generate_batch behavior n).results[i]? =
        if i < n then some (generate_with_limit behavior i) else none := by
  have hsle : (((List.range n).map (generate_with_limit behavior)).filter
      (fun r => r.success)).length ≤ n := by
    calc (((List.range n).map (generate_with_limit behavior)).filter
        (fun r => r.success)).length
        ≤ ((List.range n).map (generate_with_limit behavior)).length :=
          List.length_filter_le _ _
      _ = n := by simp
  refine ⟨by simp [generate_batch], rfl, ?_, ?_, ?_⟩
  · show (((List.range n).map (generate_with_limit behavior)).filter
        (fun r => r.success)).length +
      (((List.range n).map (generate_with_limit behavior)).length -
        (((List.range n).map (generate_with_limit behavior)).filter
          (fun r => r.success)).length) = n
    rw [List.length_map, List.length_range]
    exact Nat.add_sub_cancel' hsle
  · simp [generate_batch]
  · intro i
    show ((List.range n).map (generate_with_limit behavior))[i]? = _
    rw [List.getElem?_map]
    by_cases hi : i < n
    · rw [List.getElem?_range hi, if_pos hi]
      rfl
    · rw [if_neg hi, List.getElem?_eq_none (by simpa using Nat.le_of_not_lt hi)]
      rfl

/-- Witness for C5: a "content policy" failure on the primary. -/
theorem C5_witness :
    is_retryable_error "content policy".toList = false ∧
      try_generator_with_retry (fun _ => .err "content policy".toList) 1 2 =
        ⟨false, none, some "content policy".toList, 1, []⟩ ∧
      (generate_with_fallback
        ⟨some ("gemini".toList, fun _ => .err "content policy".toList), 2, 1, true,
          [("imagen-fast".toList, fun _ => .ok 7)]⟩).generators_attempted.take 2 =
        ["gemini".toList, "imagen-fast".toList] := by
  have h := C5_nonretryable_single_attempt "gemini".toList "imagen-fast".toList
    (fun _ => .err "content policy".toList) (fun _ => .ok 7) [] 2 1
    "content policy".toList rfl (by decide)
  exact ⟨by decide, h.1, h.2⟩

/-- Witness for C6: primary always answers "429", first fallback succeeds. -/
theorem C6_witness :
    generate_with_fallback
        ⟨some ("gemini".toList, fun _ => .err "429".toList), 2, 1, true,
          [("imagen-fast".toList, fun _ => .ok 7),
            ("imagen-regular".toList, fun _ => .ok 8)]⟩ =
      ⟨true, some 7, none, some "imagen-fast".toList, true,
        ["gemini".toList, "imagen-fast".toList]⟩ := by
  refine C6_fallback_first_success "gemini".toList "imagen-fast".toList
    (fun _ => .err "429".toList) (fun _ => .ok 7)
    [("imagen-regular".toList, fun _ => .ok 8)] 2 1 (fun _ => "429".toList) 7
    (fun _ => ⟨rfl, ?_⟩) rfl
  show is_retryable_error "429".toList = true
  decide
